import Mathlib

/-!
Shallow embedding of `src/windows/mod.rs` of the libmacchina repository.

Each Windows readout method performs one OS call (or a short deterministic
sequence of calls) and translates its result into a typed value or a typed
`ReadoutError`.  The OS calls themselves are external, so every embedded
function takes the outcome of those calls as an explicit argument (an
`Option` value where the call can fail) and performs exactly the
translation that the Rust code performs on it.
-/

/-- Modelled from the spec: the shared error taxonomy of `crate::traits`
(the trait definitions are not under `src/`).  Section 7 of the spec gives a
three-way taxonomy: not-implemented, recoverable warning (with an advisory
message), and other/fatal (with a message). -/
inductive ReadoutError where
  | NotImplemented : ReadoutError
  | Warning : String → ReadoutError
  | Other : String → ReadoutError
deriving DecidableEq, Repr

/-- Modelled from the spec: battery state enumeration of `crate::traits`
(`enum \x7bCharging, Discharging\x7d` per the data model section). -/
inductive BatteryState where
  | Charging : BatteryState
  | Discharging : BatteryState
deriving DecidableEq, Repr

/-- Modelled from the spec: package manager identifiers, a fixed closed
enumeration per the data model section
(Cargo, Scoop, Winget, Chocolatey). -/
inductive PackageManager where
  | Cargo : PackageManager
  | Scoop : PackageManager
  | Winget : PackageManager
  | Chocolatey : PackageManager
deriving DecidableEq, Repr

/-- The two fields of the Win32 `SYSTEM_POWER_STATUS` struct that the
battery readout uses.  `ACLineStatus` and `BatteryLifePercent` are both
`u8` in the Win32 API; their values lie below 256. -/
structure SYSTEM_POWER_STATUS where
  ACLineStatus : Nat
  BatteryLifePercent : Nat
deriving DecidableEq, Repr

/-- `WindowsBatteryReadout::percentage`.  The argument is the result of
`get_power_status()`: `none` when `GetSystemPowerStatus` fails. -/
def WindowsBatteryReadout.percentage
    (power : Option SYSTEM_POWER_STATUS) : Except ReadoutError Nat :=
  match power with
  | none => .error (.Other "Call to GetSystemPowerStatus failed.")
  | some power_state =>
    if power_state.BatteryLifePercent ≠ 255 then
      .ok power_state.BatteryLifePercent
    else
      .error (.Warning ("Windows reported a battery percentage of " ++
        toString power_state.BatteryLifePercent ++
        ", which means there is no battery available. Are you on a desktop system?"))

/-- `WindowsBatteryReadout::status`.  The argument is the result of
`get_power_status()`: `none` when `GetSystemPowerStatus` fails. -/
def WindowsBatteryReadout.status
    (power : Option SYSTEM_POWER_STATUS) : Except ReadoutError BatteryState :=
  match power with
  | none => .error (.Other "Call to GetSystemPowerStatus failed.")
  | some power_state =>
    match power_state.ACLineStatus with
    | 0 => .ok BatteryState.Discharging
    | 1 => .ok BatteryState.Charging
    | a => .error (.Other ("Unexpected value for ac_line_status from win32 api: " ++
        toString a))

/-- `WindowsBatteryReadout::health`: unconditionally unsupported. -/
def WindowsBatteryReadout.health : Except ReadoutError Nat :=
  .error .NotImplemented

/-- The two fields of the Win32 `MEMORYSTATUSEX` struct that the memory
readout uses.  Both are `u64` in the Win32 API (values below `2 ^ 64`). -/
structure MEMORYSTATUSEX where
  ullTotalPhys : Nat
  ullAvailPhys : Nat
deriving DecidableEq, Repr

/-- `u64` wrap-around modulus. -/
def U64_MOD : Nat := 2 ^ 64

/-- `WindowsMemoryReadout::total`.  The argument is the result of
`get_memory_status()`: `none` when `GlobalMemoryStatusEx` fails.
Converts total physical bytes to kilobytes with `/ 1024u64`. -/
def WindowsMemoryReadout.total
    (memory : Option MEMORYSTATUSEX) : Except ReadoutError Nat :=
  match memory with
  | none => .error (.Other "GlobalMemoryStatusEx returned a zero return code.")
  | some memory_status => .ok (memory_status.ullTotalPhys / 1024)

/-- `WindowsMemoryReadout::used`.  Computes
`(ullTotalPhys - ullAvailPhys) / 1024u64`; the subtraction is `u64`
subtraction, modelled with two's-complement wrap-around. -/
def WindowsMemoryReadout.used
    (memory : Option MEMORYSTATUSEX) : Except ReadoutError Nat :=
  match memory with
  | none => .error (.Other "GlobalMemoryStatusEx returned a zero return code.")
  | some memory_status =>
    .ok (((memory_status.ullTotalPhys + U64_MOD - memory_status.ullAvailPhys)
        % U64_MOD) / 1024)

/-- `WindowsGeneralReadout::uptime`.  The argument is the `u64` tick count
returned by `GetTickCount64` (milliseconds since boot);
`Duration::from_millis(t).as_secs()` is `t / 1000`, then cast to `usize`
(identity for values below `2 ^ 64`). -/
def WindowsGeneralReadout.uptime (tick_count : Nat) : Except ReadoutError Nat :=
  .ok (tick_count / 1000)

/-- `Path::join` on Windows: append one component behind a backslash. -/
def pathJoin (p c : String) : String := p ++ "\\" ++ c

/-- The environment the package readout probes: environment variables,
the home directory resolver, and the filesystem / sqlite outcomes.
Every field is the result of an external call that the Rust code makes:
`readDir p` is the entry list of `read_dir(p)` (`none` when the call
errors), `isFile` / `isDir` are `Path::is_file` / `Path::is_dir`, and
`sqliteCountIds db` collapses the sqlite open / prepare / step / read
chain on `SELECT COUNT(*) FROM ids` into its final outcome (`none` for a
failure anywhere in the chain).  `cargoCount` is the result of the shared
cross-platform `crate::shared::count_cargo` routine, an external
collaborator that the spec leaves out of scope. -/
structure PkgEnv where
  cargoCount : Option Nat
  scoopVar : Option String
  homeDir : String
  usernameVar : Option String
  readDir : String → Option (List String)
  isFile : String → Bool
  isDir : String → Bool
  sqliteCountIds : String → Option Int

/-- `WindowsPackageReadout::count_cargo`: delegates to
`crate::shared::count_cargo`. -/
def WindowsPackageReadout.count_cargo (env : PkgEnv) : Option Nat :=
  env.cargoCount

/-- The Scoop install root resolved by `count_scoop`: the `SCOOP`
environment variable when set, otherwise the `scoop` subdirectory of the
home directory. -/
def WindowsPackageReadout.scoopRoot (env : PkgEnv) : String :=
  match env.scoopVar with
  | some scoop_var => scoop_var
  | none => pathJoin env.homeDir "scoop"

/-- `WindowsPackageReadout::count_scoop`: counts the entries of the
`apps` directory under the Scoop root and subtracts one (`usize`
subtraction, modelled with two's-complement wrap-around; one entry
belongs to scoop itself). -/
def WindowsPackageReadout.count_scoop (env : PkgEnv) : Option Nat :=
  match env.readDir (pathJoin (WindowsPackageReadout.scoopRoot env) "apps") with
  | some dir => some ((dir.length + (U64_MOD - 1)) % U64_MOD)
  | none => none

/-- `WindowsPackageReadout::count_winget`: builds the per-user winget
database path from the `USERNAME` environment variable, requires the file
to exist, and runs the row-count query; the `i64` count is cast to
`usize` with two's-complement reinterpretation. -/
def WindowsPackageReadout.count_winget (env : PkgEnv) : Option Nat :=
  match env.usernameVar with
  | some username =>
    let db := "C:\\Users\\" ++ username ++
      "\\AppData\\Local\\Packages\\Microsoft.DesktopAppInstaller_8wekyb3d8bbwe\\LocalState\\Microsoft.Winget.Source_8wekyb3d8bbwe\\installed.db"
    if env.isFile db then
      match env.sqliteCountIds db with
      | some count => some ((count % (U64_MOD : Int)).toNat)
      | none => none
    else none
  | none => none

/-- The fixed system-wide Chocolatey library directory. -/
def chocolateyLibDir : String := "C:\\ProgramData\\chocolatey\\lib"

/-- `WindowsPackageReadout::count_chocolatey`: counts the entries of the
Chocolatey library directory when it exists. -/
def WindowsPackageReadout.count_chocolatey (env : PkgEnv) : Option Nat :=
  if env.isDir chocolateyLibDir then
    match env.readDir chocolateyLibDir with
    | some read_dir => some read_dir.length
    | none => none
  else none

/-- `WindowsPackageReadout::count_pkgs`: pushes a `(manager, count)` pair
for each probe that returns `Some`, in the fixed order Cargo, Scoop,
Winget, Chocolatey.  The four appended singleton-or-empty lists mirror
the four conditional `packages.push(..)` statements. -/
def WindowsPackageReadout.count_pkgs (env : PkgEnv) : List (PackageManager × Nat) :=
  (match WindowsPackageReadout.count_cargo env with
    | some c => [(PackageManager.Cargo, c)]
    | none => []) ++
  (match WindowsPackageReadout.count_scoop env with
    | some c => [(PackageManager.Scoop, c)]
    | none => []) ++
  (match WindowsPackageReadout.count_winget env with
    | some c => [(PackageManager.Winget, c)]
    | none => []) ++
  (match WindowsPackageReadout.count_chocolatey env with
    | some c => [(PackageManager.Chocolatey, c)]
    | none => [])

/-- The per-manager probe that `count_pkgs` consults for each identifier. -/
def managerCount : PackageManager → PkgEnv → Option Nat
  | PackageManager.Cargo => WindowsPackageReadout.count_cargo
  | PackageManager.Scoop => WindowsPackageReadout.count_scoop
  | PackageManager.Winget => WindowsPackageReadout.count_winget
  | PackageManager.Chocolatey => WindowsPackageReadout.count_chocolatey

/-- Overflow-checked unsigned subtraction, the semantics of Rust `usize`
subtraction with overflow checks enabled: `none` is the underflow panic. -/
def checkedSub (a b : Nat) : Option Nat :=
  if b ≤ a then some (a - b) else none

/-- The fixed registry key the product readout opens at construction. -/
def systemInformationKey : String :=
  "SYSTEM\\CurrentControlSet\\Control\\SystemInformation"

/-- The registry as the product readout sees it: whether a subkey under
`HKEY_LOCAL_MACHINE` opens, and the string values stored under a subkey
(`none` when `get_value` fails for that name). -/
structure Registry where
  subkeyExists : String → Bool
  getValue : String → String → Option String

/-- `WindowsProductReadout`: the two optional strings captured at
construction time. -/
structure WindowsProductReadout where
  manufacturer : Option String
  model : Option String
deriving DecidableEq, Repr

/-- `WindowsProductReadout::new`: opens the system-information key
(`.unwrap()` — the panic on an unopenable key is modelled as `none`) and
best-effort reads the two values with `.ok()`. -/
def WindowsProductReadout.new (reg : Registry) : Option WindowsProductReadout :=
  if reg.subkeyExists systemInformationKey then
    some { manufacturer := reg.getValue systemInformationKey "SystemManufacturer",
           model := reg.getValue systemInformationKey "SystemProductName" }
  else
    none

/-- `WindowsProductReadout::vendor`: returns the stored manufacturer. -/
def WindowsProductReadout.vendor (r : WindowsProductReadout) :
    Except ReadoutError String :=
  match r.manufacturer with
  | some v => .ok v
  | none => .error (.Other
      "Trying to get the system manufacturer from the registry failed")

/-- `WindowsProductReadout::product`: returns the stored model. -/
def WindowsProductReadout.product (r : WindowsProductReadout) :
    Except ReadoutError String :=
  match r.model with
  | some v => .ok v
  | none => .error (.Other
      "Trying to get the system product name from the registry failed")

/-- A UTF-8 continuation byte: `0x80..=0xBF`. -/
abbrev isCont (b : Nat) : Prop := 0x80 ≤ b ∧ b ≤ 0xBF

/-- Admissible second byte of a three-byte sequence with lead byte `b`,
per the UTF-8 validation table used by `String::from_utf8` (`0xE0`
excludes overlong encodings, `0xED` excludes surrogates). -/
abbrev cont2 (b b2 : Nat) : Prop :=
  (b = 0xE0 ∧ 0xA0 ≤ b2 ∧ b2 ≤ 0xBF) ∨
  (b = 0xED ∧ 0x80 ≤ b2 ∧ b2 ≤ 0x9F) ∨
  (b ≠ 0xE0 ∧ b ≠ 0xED ∧ isCont b2)

/-- Admissible second byte of a four-byte sequence with lead byte `b`
(`0xF0` excludes overlong encodings, `0xF4` caps at `U+10FFFF`). -/
abbrev cont3 (b b2 : Nat) : Prop :=
  (b = 0xF0 ∧ 0x90 ≤ b2 ∧ b2 ≤ 0xBF) ∨
  (b = 0xF4 ∧ 0x80 ≤ b2 ∧ b2 ≤ 0x8F) ∨
  (b ≠ 0xF0 ∧ b ≠ 0xF4 ∧ isCont b2)

/-- `String::from_utf8` on a byte buffer, as the list of decoded code
points (`none` on invalid UTF-8), following the validation table of the
Rust standard library: one-byte `0x00..=0x7F`, two-byte leads
`0xC2..=0xDF`, three-byte leads `0xE0..=0xEF` with constrained second
byte, four-byte leads `0xF0..=0xF4` with constrained second byte. -/
def utf8Decode : List Nat → Option (List Nat)
  | [] => some []
  | b :: rest =>
    if b ≤ 0x7F then
      (utf8Decode rest).map (b :: ·)
    else if 0xC2 ≤ b ∧ b ≤ 0xDF then
      match rest with
      | b2 :: r2 =>
        if isCont b2 then
          (utf8Decode r2).map (((b - 0xC0) * 0x40 + (b2 - 0x80)) :: ·)
        else none
      | [] => none
    else if 0xE0 ≤ b ∧ b ≤ 0xEF then
      match rest with
      | b2 :: r2 =>
        match r2 with
        | b3 :: r3 =>
          if cont2 b b2 ∧ isCont b3 then
            (utf8Decode r3).map
              (((b - 0xE0) * 0x1000 + (b2 - 0x80) * 0x40 + (b3 - 0x80)) :: ·)
          else none
        | [] => none
      | [] => none
    else if 0xF0 ≤ b ∧ b ≤ 0xF4 then
      match rest with
      | b2 :: r2 =>
        match r2 with
        | b3 :: r3 =>
          match r3 with
          | b4 :: r4 =>
            if cont3 b b2 ∧ isCont b3 ∧ isCont b4 then
              (utf8Decode r4).map
                (((b - 0xF0) * 0x40000 + (b2 - 0x80) * 0x1000 +
                  (b3 - 0x80) * 0x40 + (b4 - 0x80)) :: ·)
            else none
          | [] => none
        | [] => none
      | [] => none
    else none

/-- `WindowsGeneralReadout::username`.  `size` is the required-size value
written by the first `GetUserNameA` call (0 when that call wrote
nothing); `buf` is the byte content of the buffer after the second call
and `set_len(size)` (`none` when the second call fails).  The result
string is modelled as its list of code points; `str.pop()` drops the
last decoded character (the null terminator). -/
def WindowsGeneralReadout.username (size : Nat) (buf : Option (List Nat)) :
    Except ReadoutError (List Nat) :=
  if size = 0 then
    .error (.Other "Call to \"GetUserNameA\" failed.")
  else
    match buf with
    | none => .error (.Other "Call to \"GetUserNameA\" failed.")
    | some bytes =>
      match utf8Decode bytes with
      | none => .error (.Other "String from \"GetUserNameA\" was not valid UTF-8")
      | some cs => .ok cs.dropLast

/-- `WindowsGeneralReadout::hostname`.  Same two-call pattern with
`GetComputerNameExA`; no character is stripped from the result. -/
def WindowsGeneralReadout.hostname (size : Nat) (buf : Option (List Nat)) :
    Except ReadoutError (List Nat) :=
  if size = 0 then
    .error (.Other "Call to \"GetComputerNameExA\" failed.")
  else
    match buf with
    | none => .error (.Other "Call to \"GetComputerNameExA\" failed.")
    | some bytes =>
      match utf8Decode bytes with
      | none => .error (.Other "String from \"GetComputerNameExA\" was not valid UTF-8")
      | some cs => .ok cs

/-- C1 counterexample: `percentage()` does not reject every value outside
0–100 — the raw reading 101 is outside 0–100 yet is returned as `Ok 101`
(only the sentinel 255 is rejected). -/
theorem percentage_accepts_out_of_range :
    WindowsBatteryReadout.percentage (some ⟨0, 101⟩) = .ok 101 ∧ ¬ (101 : Nat) ≤ 100 :=
  ⟨rfl, by decide⟩

/-- C1 (amended): for every raw `u8` battery reading, `percentage()`
returns `Ok` exactly when the reading is not the sentinel 255 (readings
101–254 are passed through unvalidated), and the sentinel 255 yields a
`Warning` error saying no battery is available. -/
theorem percentage_sentinel_spec (ps : SYSTEM_POWER_STATUS)
    (h : ps.BatteryLifePercent < 256) :
    (ps.BatteryLifePercent ≠ 255 →
      WindowsBatteryReadout.percentage (some ps) = .ok ps.BatteryLifePercent) ∧
    (ps.BatteryLifePercent = 255 →
      WindowsBatteryReadout.percentage (some ps) = .error (.Warning
        ("Windows reported a battery percentage of 255, which means there is no battery available. Are you on a desktop system?"))) := by
  obtain ⟨a, p⟩ := ps
  constructor
  · intro h1
    simp [WindowsBatteryReadout.percentage, h1]
  · intro h1
    simp only at h1
    subst h1
    simp [WindowsBatteryReadout.percentage]
    rfl

/-- C1 witness: instantiates the amended claim at readings 42 and 255. -/
theorem percentage_sentinel_spec_witness :
    WindowsBatteryReadout.percentage (some ⟨0, 42⟩) = .ok 42 ∧
    WindowsBatteryReadout.percentage (some ⟨0, 255⟩) = .error (.Warning
      ("Windows reported a battery percentage of 255, which means there is no battery available. Are you on a desktop system?")) :=
  ⟨(percentage_sentinel_spec ⟨0, 42⟩ (by decide)).1 (by decide),
   (percentage_sentinel_spec ⟨0, 255⟩ (by decide)).2 rfl⟩

/-- C4: `status()` maps AC-line-status 0 to `Discharging`, 1 to
`Charging`, and every other raw integer to a fatal `Other` error naming
the unexpected value. -/
theorem status_ac_line_mapping (ps : SYSTEM_POWER_STATUS) :
    (ps.ACLineStatus = 0 →
      WindowsBatteryReadout.status (some ps) = .ok BatteryState.Discharging) ∧
    (ps.ACLineStatus = 1 →
      WindowsBatteryReadout.status (some ps) = .ok BatteryState.Charging) ∧
    (ps.ACLineStatus ≠ 0 → ps.ACLineStatus ≠ 1 →
      WindowsBatteryReadout.status (some ps) = .error (.Other
        ("Unexpected value for ac_line_status from win32 api: " ++
          toString ps.ACLineStatus))) := by
  obtain ⟨a, p⟩ := ps
  refine ⟨fun h0 => ?_, fun h1 => ?_, fun h0 h1 => ?_⟩
  · simp only at h0
    subst h0
    rfl
  · simp only at h1
    subst h1
    rfl
  · simp only at h0 h1
    match a, h0, h1 with
    | n + 2, _, _ => rfl

/-- C4 witness: instantiates the mapping at raw values 0, 1 and 2. -/
theorem status_ac_line_mapping_witness :
    WindowsBatteryReadout.status (some ⟨0, 50⟩) = .ok BatteryState.Discharging ∧
    WindowsBatteryReadout.status (some ⟨1, 50⟩) = .ok BatteryState.Charging ∧
    WindowsBatteryReadout.status (some ⟨2, 50⟩) = .error (.Other
      "Unexpected value for ac_line_status from win32 api: 2") :=
  ⟨(status_ac_line_mapping ⟨0, 50⟩).1 rfl,
   (status_ac_line_mapping ⟨1, 50⟩).2.1 rfl,
   (status_ac_line_mapping ⟨2, 50⟩).2.2 (by decide) (by decide)⟩

/-- C3: for every memory snapshot with `available ≤ total` (both `u64`),
`used()` is `Ok ((total − available) / 1024)` over the raw byte values,
`total()` is `Ok (total / 1024)` (bytes to kilobytes by integer division
by 1024), and a raw total of 2147483648 bytes yields `total() = Ok 2097152`. -/
theorem memory_total_used_kilobytes (m : MEMORYSTATUSEX)
    (h1 : m.ullAvailPhys ≤ m.ullTotalPhys) (h2 : m.ullTotalPhys < 2 ^ 64) :
    WindowsMemoryReadout.total (some m) = .ok (m.ullTotalPhys / 1024) ∧
    WindowsMemoryReadout.used (some m) =
      .ok ((m.ullTotalPhys - m.ullAvailPhys) / 1024) ∧
    (m.ullTotalPhys = 2147483648 →
      WindowsMemoryReadout.total (some m) = .ok 2097152) := by
  refine ⟨rfl, ?_, fun ht => ?_⟩
  · have hw : (m.ullTotalPhys + U64_MOD - m.ullAvailPhys) % U64_MOD =
        m.ullTotalPhys - m.ullAvailPhys := by
      unfold U64_MOD
      omega
    simp [WindowsMemoryReadout.used, hw]
  · simp [WindowsMemoryReadout.total, ht]

/-- C3 witness: instantiates the memory contract at a snapshot with
total 2147483648 bytes and 1048576 available bytes. -/
theorem memory_total_used_kilobytes_witness :
    WindowsMemoryReadout.total (some ⟨2147483648, 1048576⟩) = .ok 2097152 ∧
    WindowsMemoryReadout.used (some ⟨2147483648, 1048576⟩) = .ok 2096128 :=
  ⟨(memory_total_used_kilobytes ⟨2147483648, 1048576⟩ (by norm_num) (by norm_num)).2.2 rfl,
   (memory_total_used_kilobytes ⟨2147483648, 1048576⟩ (by norm_num) (by norm_num)).2.1⟩

/-- C8: `uptime()` converts the millisecond tick count to whole seconds
by floor division: it returns `Ok (t / 1000)`, the returned value `r`
satisfies `r * 1000 ≤ t < r * 1000 + 1000`, and 90000 milliseconds yield
exactly 90 seconds. -/
theorem uptime_floor_millis (t : Nat) (h : t < 2 ^ 64) :
    WindowsGeneralReadout.uptime t = .ok (t / 1000) ∧
    (∀ r, WindowsGeneralReadout.uptime t = .ok r →
      r * 1000 ≤ t ∧ t < r * 1000 + 1000) ∧
    WindowsGeneralReadout.uptime 90000 = .ok 90 := by
  refine ⟨rfl, fun r hr => ?_, rfl⟩
  simp only [WindowsGeneralReadout.uptime, Except.ok.injEq] at hr
  omega

/-- C8 witness: instantiates the uptime contract at 90000 milliseconds. -/
theorem uptime_floor_millis_witness :
    WindowsGeneralReadout.uptime 90000 = .ok 90 ∧
    90 * 1000 ≤ 90000 ∧ 90000 < 90 * 1000 + 1000 :=
  ⟨(uptime_floor_millis 90000 (by norm_num)).2.2,
   (uptime_floor_millis 90000 (by norm_num)).2.1 90
     (uptime_floor_millis 90000 (by norm_num)).2.2⟩

theorem U64_MOD_eq : U64_MOD = 18446744073709551616 := by
  norm_num [U64_MOD]

/-- C2: when the resolved Scoop apps directory reads back `N ≥ 1` entries
(with `N` a valid `usize`), `count_scoop` reports `N − 1`; the install
root is the `SCOOP` environment variable when set, otherwise the `scoop`
subdirectory of the home directory. -/
theorem count_scoop_entries (env : PkgEnv) :
    (∀ entries : List String,
      env.readDir (pathJoin (WindowsPackageReadout.scoopRoot env) "apps") =
        some entries →
      1 ≤ entries.length → entries.length < 2 ^ 64 →
      WindowsPackageReadout.count_scoop env = some (entries.length - 1)) ∧
    (∀ v, env.scoopVar = some v → WindowsPackageReadout.scoopRoot env = v) ∧
    (env.scoopVar = none →
      WindowsPackageReadout.scoopRoot env = pathJoin env.homeDir "scoop") := by
  refine ⟨fun entries hrd hge hlt => ?_, fun v hv => ?_, fun hn => ?_⟩
  · simp only [WindowsPackageReadout.count_scoop, hrd, Option.some.injEq]
    rw [U64_MOD_eq]
    norm_num at hlt
    omega
  · simp [WindowsPackageReadout.scoopRoot, hv]
  · simp [WindowsPackageReadout.scoopRoot, hn]

/-- A package environment whose Scoop root is given by the `SCOOP`
variable and whose apps directory holds three entries. -/
def envScoopThree : PkgEnv :=
  { cargoCount := none, scoopVar := some "C:\\scoop", homeDir := "C:\\Users\\u",
    usernameVar := none,
    readDir := fun _ => some ["scoop", "git", "7zip"],
    isFile := fun _ => false, isDir := fun _ => false,
    sqliteCountIds := fun _ => none }

/-- C2 witness: a three-entry apps directory yields a Scoop count of 2,
and the root resolves to the `SCOOP` variable. -/
theorem count_scoop_entries_witness :
    WindowsPackageReadout.count_scoop envScoopThree = some 2 ∧
    WindowsPackageReadout.scoopRoot envScoopThree = "C:\\scoop" :=
  ⟨(count_scoop_entries envScoopThree).1 ["scoop", "git", "7zip"] rfl
      (by decide) (by norm_num),
   (count_scoop_entries envScoopThree).2.1 "C:\\scoop" rfl⟩

/-- A package environment whose Scoop apps directory exists but is empty. -/
def envScoopEmpty : PkgEnv :=
  { cargoCount := none, scoopVar := some "C:\\scoop", homeDir := "C:\\Users\\u",
    usernameVar := none,
    readDir := fun _ => some [],
    isFile := fun _ => false, isDir := fun _ => false,
    sqliteCountIds := fun _ => none }

/-- C10: on an existing but empty Scoop apps directory the subtraction
`dir.count() - 1` underflows: overflow-checked `usize` subtraction on the
count 0 fails (a panic), and under wrap-around semantics `count_scoop`
returns `2 ^ 64 − 1` instead of any well-defined entry count — in
particular not `Some 0` — so the `N ≥ 1` precondition is load-bearing. -/
theorem count_scoop_empty_underflow :
    envScoopEmpty.readDir
      (pathJoin (WindowsPackageReadout.scoopRoot envScoopEmpty) "apps") = some [] ∧
    checkedSub (List.length ([] : List String)) 1 = none ∧
    WindowsPackageReadout.count_scoop envScoopEmpty = some (2 ^ 64 - 1) ∧
    WindowsPackageReadout.count_scoop envScoopEmpty ≠ some 0 := by
  refine ⟨rfl, rfl, rfl, fun h => ?_⟩
  rw [show WindowsPackageReadout.count_scoop envScoopEmpty =
      some (2 ^ 64 - 1) from rfl] at h
  simp only [Option.some.injEq] at h
  norm_num at h

/-- C5: `count_pkgs()` is total and returns exactly the managers whose
probe succeeded: a pair `(m, c)` is in the result precisely when the
probe for `m` returned `Some c`; in particular a missing Chocolatey
library directory excludes Chocolatey from the result entirely. -/
theorem count_pkgs_partial_results (env : PkgEnv) :
    (∀ m c, (m, c) ∈ WindowsPackageReadout.count_pkgs env ↔
      managerCount m env = some c) ∧
    (env.isDir chocolateyLibDir = false →
      ∀ c, (PackageManager.Chocolatey, c) ∉ WindowsPackageReadout.count_pkgs env) := by
  have hmem : ∀ m c, (m, c) ∈ WindowsPackageReadout.count_pkgs env ↔
      managerCount m env = some c := by
    intro m c
    rcases h1 : WindowsPackageReadout.count_cargo env with _ | c1 <;>
      rcases h2 : WindowsPackageReadout.count_scoop env with _ | c2 <;>
      rcases h3 : WindowsPackageReadout.count_winget env with _ | c3 <;>
      rcases h4 : WindowsPackageReadout.count_chocolatey env with _ | c4 <;>
      cases m <;>
      simp [WindowsPackageReadout.count_pkgs, managerCount, h1, h2, h3, h4,
        eq_comm]
  refine ⟨hmem, fun hdir c => ?_⟩
  rw [hmem]
  simp [managerCount, WindowsPackageReadout.count_chocolatey, hdir]

/-- A package environment where only Cargo and Scoop succeed: no
`USERNAME` variable and no Chocolatey library directory. -/
def envCargoScoop : PkgEnv :=
  { cargoCount := some 7, scoopVar := some "C:\\scoop", homeDir := "C:\\Users\\u",
    usernameVar := none,
    readDir := fun _ => some ["scoop", "git", "7zip"],
    isFile := fun _ => false, isDir := fun _ => false,
    sqliteCountIds := fun _ => none }

/-- C5 witness: with Cargo reporting 7 and a three-entry Scoop apps
directory, only those two managers are listed and Chocolatey is absent. -/
theorem count_pkgs_partial_results_witness :
    WindowsPackageReadout.count_pkgs envCargoScoop =
      [(PackageManager.Cargo, 7), (PackageManager.Scoop, 2)] ∧
    ((PackageManager.Scoop, 2) ∈ WindowsPackageReadout.count_pkgs envCargoScoop ↔
      managerCount PackageManager.Scoop envCargoScoop = some 2) ∧
    (PackageManager.Chocolatey, 0) ∉ WindowsPackageReadout.count_pkgs envCargoScoop :=
  ⟨rfl,
   (count_pkgs_partial_results envCargoScoop).1 PackageManager.Scoop 2,
   (count_pkgs_partial_results envCargoScoop).2 rfl 0⟩

/-- C9: the identifiers of every `count_pkgs()` result form a sublist of
the fixed enumeration Cargo, Scoop, Winget, Chocolatey (so each manager
appears at most once, no other identifier appears, and the relative
order always follows that enumeration), and they are duplicate-free. -/
theorem count_pkgs_ordered_enumeration (env : PkgEnv) :
    List.Sublist ((WindowsPackageReadout.count_pkgs env).map Prod.fst)
      [PackageManager.Cargo, PackageManager.Scoop, PackageManager.Winget,
        PackageManager.Chocolatey] ∧
    ((WindowsPackageReadout.count_pkgs env).map Prod.fst).Nodup := by
  have hs : List.Sublist ((WindowsPackageReadout.count_pkgs env).map Prod.fst)
      [PackageManager.Cargo, PackageManager.Scoop, PackageManager.Winget,
        PackageManager.Chocolatey] := by
    rcases h1 : WindowsPackageReadout.count_cargo env with _ | c1 <;>
      rcases h2 : WindowsPackageReadout.count_scoop env with _ | c2 <;>
      rcases h3 : WindowsPackageReadout.count_winget env with _ | c3 <;>
      rcases h4 : WindowsPackageReadout.count_chocolatey env with _ | c4 <;>
      simp [WindowsPackageReadout.count_pkgs, h1, h2, h3, h4]
  exact ⟨hs, hs.nodup (by decide)⟩

/-- C7: when the system-information key opens with `SystemManufacturer`
present and `SystemProductName` absent, construction captures exactly
those two outcomes, `product()` fails with the descriptive error and
`vendor()` returns the stored manufacturer; both accessors read only the
captured fields. -/
theorem product_absent_value (reg : Registry) (m : String)
    (hk : reg.subkeyExists systemInformationKey = true)
    (hp : reg.getValue systemInformationKey "SystemProductName" = none)
    (hm : reg.getValue systemInformationKey "SystemManufacturer" = some m) :
    WindowsProductReadout.new reg = some ⟨some m, none⟩ ∧
    WindowsProductReadout.product ⟨some m, none⟩ = .error (.Other
      "Trying to get the system product name from the registry failed") ∧
    WindowsProductReadout.vendor ⟨some m, none⟩ = .ok m := by
  refine ⟨?_, rfl, rfl⟩
  simp [WindowsProductReadout.new, hk, hp, hm]

/-- A registry fixture whose system-information key opens and stores only
`SystemManufacturer`. -/
def regNoProduct : Registry :=
  { subkeyExists := fun _ => true,
    getValue := fun _ v => if v = "SystemManufacturer" then some "Dell Inc." else none }

/-- C7 witness: instantiates the product probe contract on the fixture
missing `SystemProductName`. -/
theorem product_absent_value_witness :
    WindowsProductReadout.new regNoProduct = some ⟨some "Dell Inc.", none⟩ ∧
    WindowsProductReadout.product ⟨some "Dell Inc.", none⟩ = .error (.Other
      "Trying to get the system product name from the registry failed") ∧
    WindowsProductReadout.vendor ⟨some "Dell Inc.", none⟩ = .ok "Dell Inc." :=
  product_absent_value regNoProduct "Dell Inc." rfl rfl rfl

theorem utf8Decode_nil : utf8Decode [] = some [] := rfl

theorem utf8Decode_ascii (b : Nat) (rest : List Nat) (hb : b ≤ 0x7F) :
    utf8Decode (b :: rest) = (utf8Decode rest).map (b :: ·) := by
  rw [utf8Decode.eq_def]
  simp [hb]

theorem utf8Decode_two (b b2 : Nat) (r2 : List Nat)
    (hb : 0xC2 ≤ b ∧ b ≤ 0xDF) (hc : isCont b2) :
    utf8Decode (b :: b2 :: r2) =
      (utf8Decode r2).map (((b - 0xC0) * 0x40 + (b2 - 0x80)) :: ·) := by
  rw [utf8Decode.eq_def]
  simp [hb, hc, show ¬ b ≤ 0x7F by omega]

theorem utf8Decode_two_bad (b b2 : Nat) (r2 : List Nat)
    (hb : 0xC2 ≤ b ∧ b ≤ 0xDF) (hc : ¬ isCont b2) :
    utf8Decode (b :: b2 :: r2) = none := by
  rw [utf8Decode.eq_def]
  simp [hb, hc, show ¬ b ≤ 0x7F by omega]

theorem utf8Decode_two_short (b : Nat) (hb : 0xC2 ≤ b ∧ b ≤ 0xDF) :
    utf8Decode [b] = none := by
  rw [utf8Decode.eq_def]
  simp [hb, show ¬ b ≤ 0x7F by omega]

theorem utf8Decode_three (b b2 b3 : Nat) (r3 : List Nat)
    (hb : 0xE0 ≤ b ∧ b ≤ 0xEF) (hc : cont2 b b2 ∧ isCont b3) :
    utf8Decode (b :: b2 :: b3 :: r3) =
      (utf8Decode r3).map
        (((b - 0xE0) * 0x1000 + (b2 - 0x80) * 0x40 + (b3 - 0x80)) :: ·) := by
  rw [utf8Decode.eq_def]
  simp [hb, hc, show ¬ b ≤ 0x7F by omega, show ¬ (0xC2 ≤ b ∧ b ≤ 0xDF) by omega]

theorem utf8Decode_three_bad (b b2 b3 : Nat) (r3 : List Nat)
    (hb : 0xE0 ≤ b ∧ b ≤ 0xEF) (hc : ¬ (cont2 b b2 ∧ isCont b3)) :
    utf8Decode (b :: b2 :: b3 :: r3) = none := by
  rw [utf8Decode.eq_def]
  simp [hb, hc, show ¬ b ≤ 0x7F by omega, show ¬ (0xC2 ≤ b ∧ b ≤ 0xDF) by omega]

theorem utf8Decode_three_short2 (b b2 : Nat) (hb : 0xE0 ≤ b ∧ b ≤ 0xEF) :
    utf8Decode [b, b2] = none := by
  rw [utf8Decode.eq_def]
  simp [hb, show ¬ b ≤ 0x7F by omega, show ¬ (0xC2 ≤ b ∧ b ≤ 0xDF) by omega]

theorem utf8Decode_three_short1 (b : Nat) (hb : 0xE0 ≤ b ∧ b ≤ 0xEF) :
    utf8Decode [b] = none := by
  rw [utf8Decode.eq_def]
  simp [hb, show ¬ b ≤ 0x7F by omega, show ¬ (0xC2 ≤ b ∧ b ≤ 0xDF) by omega]

theorem utf8Decode_four (b b2 b3 b4 : Nat) (r4 : List Nat)
    (hb : 0xF0 ≤ b ∧ b ≤ 0xF4) (hc : cont3 b b2 ∧ isCont b3 ∧ isCont b4) :
    utf8Decode (b :: b2 :: b3 :: b4 :: r4) =
      (utf8Decode r4).map
        (((b - 0xF0) * 0x40000 + (b2 - 0x80) * 0x1000 +
          (b3 - 0x80) * 0x40 + (b4 - 0x80)) :: ·) := by
  rw [utf8Decode.eq_def]
  simp [hb, hc, show ¬ b ≤ 0x7F by omega, show ¬ (0xC2 ≤ b ∧ b ≤ 0xDF) by omega,
    show ¬ (0xE0 ≤ b ∧ b ≤ 0xEF) by omega]

theorem utf8Decode_four_bad (b b2 b3 b4 : Nat) (r4 : List Nat)
    (hb : 0xF0 ≤ b ∧ b ≤ 0xF4) (hc : ¬ (cont3 b b2 ∧ isCont b3 ∧ isCont b4)) :
    utf8Decode (b :: b2 :: b3 :: b4 :: r4) = none := by
  rw [utf8Decode.eq_def]
  simp [hb, hc, show ¬ b ≤ 0x7F by omega, show ¬ (0xC2 ≤ b ∧ b ≤ 0xDF) by omega,
    show ¬ (0xE0 ≤ b ∧ b ≤ 0xEF) by omega]

theorem utf8Decode_four_short3 (b b2 b3 : Nat) (hb : 0xF0 ≤ b ∧ b ≤ 0xF4) :
    utf8Decode [b, b2, b3] = none := by
  rw [utf8Decode.eq_def]
  simp [hb, show ¬ b ≤ 0x7F by omega, show ¬ (0xC2 ≤ b ∧ b ≤ 0xDF) by omega,
    show ¬ (0xE0 ≤ b ∧ b ≤ 0xEF) by omega]

theorem utf8Decode_four_short2 (b b2 : Nat) (hb : 0xF0 ≤ b ∧ b ≤ 0xF4) :
    utf8Decode [b, b2] = none := by
  rw [utf8Decode.eq_def]
  simp [hb, show ¬ b ≤ 0x7F by omega, show ¬ (0xC2 ≤ b ∧ b ≤ 0xDF) by omega,
    show ¬ (0xE0 ≤ b ∧ b ≤ 0xEF) by omega]

theorem utf8Decode_four_short1 (b : Nat) (hb : 0xF0 ≤ b ∧ b ≤ 0xF4) :
    utf8Decode [b] = none := by
  rw [utf8Decode.eq_def]
  simp [hb, show ¬ b ≤ 0x7F by omega, show ¬ (0xC2 ≤ b ∧ b ≤ 0xDF) by omega,
    show ¬ (0xE0 ≤ b ∧ b ≤ 0xEF) by omega]

theorem utf8Decode_bad_lead (b : Nat) (rest : List Nat)
    (h1 : ¬ b ≤ 0x7F) (h2 : ¬ (0xC2 ≤ b ∧ b ≤ 0xDF))
    (h3 : ¬ (0xE0 ≤ b ∧ b ≤ 0xEF)) (h4 : ¬ (0xF0 ≤ b ∧ b ≤ 0xF4)) :
    utf8Decode (b :: rest) = none := by
  rw [utf8Decode.eq_def]
  simp [h1, h2, h3, h4]

theorem utf8Decode_no_null_aux :
    ∀ (n : Nat) (bytes : List Nat), bytes.length ≤ n →
      ∀ cs, utf8Decode bytes = some cs → 0 ∉ bytes → 0 ∉ cs := by
  intro n
  induction n with
  | zero =>
    intro bytes hlen cs h h0
    match bytes, hlen with
    | [], _ =>
      rw [utf8Decode_nil, Option.some.injEq] at h
      subst h
      simp
  | succ n ih =>
    intro bytes hlen cs h h0
    match bytes with
    | [] =>
      rw [utf8Decode_nil, Option.some.injEq] at h
      subst h
      simp
    | b :: rest =>
      simp only [List.length_cons, Nat.add_le_add_iff_right] at hlen
      simp only [List.mem_cons, not_or] at h0
      obtain ⟨hb0, hrest0⟩ := h0
      by_cases hb1 : b ≤ 0x7F
      · rw [utf8Decode_ascii b rest hb1] at h
        obtain ⟨cs1, hr, hcs⟩ := Option.map_eq_some'.mp h
        subst hcs
        have hno := ih rest hlen cs1 hr hrest0
        simp only [List.mem_cons, not_or]
        exact ⟨hb0, hno⟩
      · by_cases hb2 : 0xC2 ≤ b ∧ b ≤ 0xDF
        · rcases rest with _ | ⟨b2, r2⟩
          · rw [utf8Decode_two_short b hb2] at h
            exact absurd h (by simp)
          · by_cases hc : isCont b2
            · rw [utf8Decode_two b b2 r2 hb2 hc] at h
              obtain ⟨cs1, hr, hcs⟩ := Option.map_eq_some'.mp h
              subst hcs
              simp only [List.mem_cons, not_or] at hrest0
              obtain ⟨hb20, hr20⟩ := hrest0
              have hlen2 : r2.length ≤ n := by
                simp only [List.length_cons] at hlen
                omega
              have hno := ih r2 hlen2 cs1 hr hr20
              simp only [List.mem_cons, not_or]
              refine ⟨fun he => ?_, hno⟩
              obtain ⟨hcA, hcB⟩ := hc
              omega
            · rw [utf8Decode_two_bad b b2 r2 hb2 hc] at h
              exact absurd h (by simp)
        · by_cases hb3 : 0xE0 ≤ b ∧ b ≤ 0xEF
          · rcases rest with _ | ⟨b2, r2⟩
            · rw [utf8Decode_three_short1 b hb3] at h
              exact absurd h (by simp)
            · rcases r2 with _ | ⟨b3, r3⟩
              · rw [utf8Decode_three_short2 b b2 hb3] at h
                exact absurd h (by simp)
              · by_cases hc : cont2 b b2 ∧ isCont b3
                · rw [utf8Decode_three b b2 b3 r3 hb3 hc] at h
                  obtain ⟨cs1, hr, hcs⟩ := Option.map_eq_some'.mp h
                  subst hcs
                  simp only [List.mem_cons, not_or] at hrest0
                  obtain ⟨hb20, hb30, hr30⟩ := hrest0
                  have hlen3 : r3.length ≤ n := by
                    simp only [List.length_cons] at hlen
                    omega
                  have hno := ih r3 hlen3 cs1 hr hr30
                  simp only [List.mem_cons, not_or]
                  refine ⟨fun he => ?_, hno⟩
                  obtain ⟨hc2, hc3a, hc3b⟩ := hc
                  rcases hc2 with ⟨he0, ha, hbb⟩ | ⟨he0, ha, hbb⟩ | ⟨hne1, hne2, ha, hbb⟩ <;> omega
                · rw [utf8Decode_three_bad b b2 b3 r3 hb3 hc] at h
                  exact absurd h (by simp)
          · by_cases hb4 : 0xF0 ≤ b ∧ b ≤ 0xF4
            · rcases rest with _ | ⟨b2, r2⟩
              · rw [utf8Decode_four_short1 b hb4] at h
                exact absurd h (by simp)
              · rcases r2 with _ | ⟨b3, r3⟩
                · rw [utf8Decode_four_short2 b b2 hb4] at h
                  exact absurd h (by simp)
                · rcases r3 with _ | ⟨b4, r4⟩
                  · rw [utf8Decode_four_short3 b b2 b3 hb4] at h
                    exact absurd h (by simp)
                  · by_cases hc : cont3 b b2 ∧ isCont b3 ∧ isCont b4
                    · rw [utf8Decode_four b b2 b3 b4 r4 hb4 hc] at h
                      obtain ⟨cs1, hr, hcs⟩ := Option.map_eq_some'.mp h
                      subst hcs
                      simp only [List.mem_cons, not_or] at hrest0
                      obtain ⟨hb20, hb30, hb40, hr40⟩ := hrest0
                      have hlen4 : r4.length ≤ n := by
                        simp only [List.length_cons] at hlen
                        omega
                      have hno := ih r4 hlen4 cs1 hr hr40
                      simp only [List.mem_cons, not_or]
                      refine ⟨fun he => ?_, hno⟩
                      obtain ⟨hc2, ⟨hc3a, hc3b⟩, hc4a, hc4b⟩ := hc
                      rcases hc2 with ⟨he0, ha, hbb⟩ | ⟨he0, ha, hbb⟩ | ⟨hne1, hne2, ha, hbb⟩ <;> omega
                    · rw [utf8Decode_four_bad b b2 b3 b4 r4 hb4 hc] at h
                      exact absurd h (by simp)
            · rw [utf8Decode_bad_lead b rest hb1 hb2 hb3 hb4] at h
              exact absurd h (by simp)

theorem utf8Decode_append_null_aux :
    ∀ (n : Nat) (s : List Nat), s.length ≤ n →
      ∀ cs, utf8Decode (s ++ [0]) = some cs →
        ∃ cs1, utf8Decode s = some cs1 ∧ cs = cs1 ++ [0] := by
  intro n
  induction n with
  | zero =>
    intro s hlen cs h
    match s, hlen with
    | [], _ =>
      refine ⟨[], utf8Decode_nil, ?_⟩
      rw [show utf8Decode ([] ++ [0]) = some [0] from by decide, Option.some.injEq] at h
      subst h
      rfl
  | succ n ih =>
    intro s hlen cs h
    match s with
    | [] =>
      refine ⟨[], utf8Decode_nil, ?_⟩
      rw [show utf8Decode ([] ++ [0]) = some [0] from by decide, Option.some.injEq] at h
      subst h
      rfl
    | b :: t =>
      simp only [List.length_cons, Nat.add_le_add_iff_right] at hlen
      rw [List.cons_append] at h
      by_cases hb1 : b ≤ 0x7F
      · rw [utf8Decode_ascii b (t ++ [0]) hb1] at h
        obtain ⟨cs0, hr, hcs⟩ := Option.map_eq_some'.mp h
        subst hcs
        obtain ⟨cs1, hd, hcs0⟩ := ih t hlen cs0 hr
        subst hcs0
        exact ⟨b :: cs1, by rw [utf8Decode_ascii b t hb1, hd]; rfl, rfl⟩
      · by_cases hb2 : 0xC2 ≤ b ∧ b ≤ 0xDF
        · rcases t with _ | ⟨b2, t2⟩
          · rw [List.nil_append] at h
            rw [utf8Decode_two_bad b 0 [] hb2 (by norm_num [isCont])] at h
            exact absurd h (by simp)
          · rw [List.cons_append] at h
            by_cases hc : isCont b2
            · rw [utf8Decode_two b b2 (t2 ++ [0]) hb2 hc] at h
              obtain ⟨cs0, hr, hcs⟩ := Option.map_eq_some'.mp h
              subst hcs
              have hlen2 : t2.length ≤ n := by
                simp only [List.length_cons] at hlen
                omega
              obtain ⟨cs1, hd, hcs0⟩ := ih t2 hlen2 cs0 hr
              subst hcs0
              exact ⟨_ :: cs1, by rw [utf8Decode_two b b2 t2 hb2 hc, hd]; rfl, rfl⟩
            · rw [utf8Decode_two_bad b b2 (t2 ++ [0]) hb2 hc] at h
              exact absurd h (by simp)
        · by_cases hb3 : 0xE0 ≤ b ∧ b ≤ 0xEF
          · rcases t with _ | ⟨b2, t2⟩
            · rw [List.nil_append] at h
              rw [utf8Decode_three_short2 b 0 hb3] at h
              exact absurd h (by simp)
            · rcases t2 with _ | ⟨b3, t3⟩
              · simp only [List.cons_append, List.nil_append] at h
                rw [utf8Decode_three_bad b b2 0 [] hb3
                  (by simp only [isCont]; omega)] at h
                exact absurd h (by simp)
              · simp only [List.cons_append] at h
                by_cases hc : cont2 b b2 ∧ isCont b3
                · rw [utf8Decode_three b b2 b3 (t3 ++ [0]) hb3 hc] at h
                  obtain ⟨cs0, hr, hcs⟩ := Option.map_eq_some'.mp h
                  subst hcs
                  have hlen3 : t3.length ≤ n := by
                    simp only [List.length_cons] at hlen
                    omega
                  obtain ⟨cs1, hd, hcs0⟩ := ih t3 hlen3 cs0 hr
                  subst hcs0
                  exact ⟨_ :: cs1, by rw [utf8Decode_three b b2 b3 t3 hb3 hc, hd]; rfl, rfl⟩
                · rw [utf8Decode_three_bad b b2 b3 (t3 ++ [0]) hb3 hc] at h
                  exact absurd h (by simp)
          · by_cases hb4 : 0xF0 ≤ b ∧ b ≤ 0xF4
            · rcases t with _ | ⟨b2, t2⟩
              · rw [List.nil_append] at h
                rw [utf8Decode_four_short2 b 0 hb4] at h
                exact absurd h (by simp)
              · rcases t2 with _ | ⟨b3, t3⟩
                · simp only [List.cons_append, List.nil_append] at h
                  rw [utf8Decode_four_short3 b b2 0 hb4] at h
                  exact absurd h (by simp)
                · rcases t3 with _ | ⟨b4, t4⟩
                  · simp only [List.cons_append, List.nil_append] at h
                    rw [utf8Decode_four_bad b b2 b3 0 [] hb4
                      (by simp only [isCont]; omega)] at h
                    exact absurd h (by simp)
                  · simp only [List.cons_append] at h
                    by_cases hc : cont3 b b2 ∧ isCont b3 ∧ isCont b4
                    · rw [utf8Decode_four b b2 b3 b4 (t4 ++ [0]) hb4 hc] at h
                      obtain ⟨cs0, hr, hcs⟩ := Option.map_eq_some'.mp h
                      subst hcs
                      have hlen4 : t4.length ≤ n := by
                        simp only [List.length_cons] at hlen
                        omega
                      obtain ⟨cs1, hd, hcs0⟩ := ih t4 hlen4 cs0 hr
                      subst hcs0
                      exact ⟨_ :: cs1, by rw [utf8Decode_four b b2 b3 b4 t4 hb4 hc, hd]; rfl, rfl⟩
                    · rw [utf8Decode_four_bad b b2 b3 b4 (t4 ++ [0]) hb4 hc] at h
                      exact absurd h (by simp)
            · rw [utf8Decode_bad_lead b (t ++ [0]) hb1 hb2 hb3 hb4] at h
              exact absurd h (by simp)

theorem username_hostname_no_null (size hsize : Nat) (s hbytes bad : List Nat) :
    (∀ r, WindowsGeneralReadout.username size (some (s ++ [0])) = .ok r →
      0 ∉ s → 0 ∉ r ∧ utf8Decode s = some r) ∧
    (∀ r, WindowsGeneralReadout.hostname hsize (some hbytes) = .ok r →
      0 ∉ hbytes → 0 ∉ r) ∧
    (utf8Decode bad = none →
      ∀ r, WindowsGeneralReadout.username size (some bad) ≠ .ok r) := by
  refine ⟨fun r h hs0 => ?_, fun r h hh0 => ?_, fun hbad r h => ?_⟩
  · by_cases hsz : size = 0
    · simp [WindowsGeneralReadout.username, hsz] at h
    · simp only [WindowsGeneralReadout.username, if_neg hsz] at h
      rcases hd : utf8Decode (s ++ [0]) with _ | cs <;> rw [hd] at h
      · cases h
      · simp only [Except.ok.injEq] at h
        subst h
        obtain ⟨cs1, hdec, hcs⟩ :=
          utf8Decode_append_null_aux s.length s le_rfl cs hd
        subst hcs
        rw [List.dropLast_concat]
        exact ⟨utf8Decode_no_null_aux s.length s le_rfl cs1 hdec hs0, hdec⟩
  · by_cases hsz : hsize = 0
    · simp [WindowsGeneralReadout.hostname, hsz] at h
    · simp only [WindowsGeneralReadout.hostname, if_neg hsz] at h
      rcases hd : utf8Decode hbytes with _ | cs <;> rw [hd] at h
      · cases h
      · simp only [Except.ok.injEq] at h
        subst h
        exact utf8Decode_no_null_aux hbytes.length hbytes le_rfl cs hd hh0
  · by_cases hsz : size = 0
    · simp [WindowsGeneralReadout.username, hsz] at h
    · simp only [WindowsGeneralReadout.username, if_neg hsz, hbad] at h
      cases h

theorem username_hostname_no_null_witness :
    ((0 : Nat) ∉ ([104, 105] : List Nat) ∧ utf8Decode [104, 105] = some [104, 105]) ∧
    (0 : Nat) ∉ ([104, 105] : List Nat) ∧
    WindowsGeneralReadout.username 3 (some [255]) ≠ .ok [1] :=
  ⟨(username_hostname_no_null 3 2 [104, 105] [104, 105] [255]).1 [104, 105]
      (by rfl) (by decide),
   (username_hostname_no_null 3 2 [104, 105] [104, 105] [255]).2.1 [104, 105]
      (by rfl) (by decide),
   (username_hostname_no_null 3 2 [104, 105] [104, 105] [255]).2.2
      (by decide) [1]⟩
